import Mathlib

/-!
Verification of the supply-funnel intake pipeline against its design notes.

The development shallowly embeds the TypeScript lambdas of the repository:

* `1-entry/handle-entry.ts` — webhook intake: field normalisation
  (`findNestedValue`, `transformData`), CSV rendering (`prepareCsvData`),
  content hashing (`generateIdFromContent`, SHA-256 over the JSON
  serialisation), and the storage / workflow side effects
  (`saveToDynamoDB`, `startStepFunctionsExecution`).
* `2-impact-assessment/generate-impact-assessment.ts` — the scoring engine
  (`calculateScore`) and its own CSV renderer (`convertToCSV`).
* `4-approval/handle-approval.ts` and `5-waitlist/handle-waitlist.ts` —
  the decision endpoints.
* `lib/supply-funnel-stack.ts` — the Step Functions wiring; only the
  timeout configuration is needed here.

JavaScript numbers are modelled as `Int` where they are integral data and
as `Rat` in the scoring arithmetic; `Math.round` is embedded as
`⌊x + 1/2⌋`, which is exactly JavaScript's round-half-up on finite values.
JavaScript objects are modelled as insertion-ordered association lists,
which is how `for … in`, `Object.entries` and `JSON.stringify` traverse
them.
-/

namespace CommonGood

/-! ## JavaScript values

`JsValue` models the JSON values the webhook delivers (`JSON.parse` output):
strings, numbers, booleans, `null`, objects and arrays.  Objects are
insertion-ordered field lists (`JsFields`); arrays are `JsList`.  Numbers
are modelled as integers: every numeric corner the claims touch is
integral, and none of the claims depends on non-integral numerics.
-/

mutual

inductive JsValue where
  | str (s : String)
  | num (n : Int)
  | bool (b : Bool)
  | null
  | obj (fields : JsFields)
  | arr (elts : JsList)

inductive JsFields where
  | nil
  | cons (name : String) (value : JsValue) (rest : JsFields)

inductive JsList where
  | nil
  | cons (head : JsValue) (tail : JsList)

end

/-- JavaScript truthiness of a `JsValue`: `''`, `0`, `false` and `null`
are falsy; every object and array is truthy. -/
def truthy : JsValue → Bool
  | .str s => !(s == "")
  | .num n => !(n == 0)
  | .bool b => b
  | .null => false
  | .obj _ => true
  | .arr _ => true

/-- First field with the given name in an object (JS property read;
parsed JSON objects have unique names, so first = only). -/
def JsFields.lookup : JsFields → String → Option JsValue
  | .nil, _ => none
  | .cons n v rest, k => if n = k then some v else rest.lookup k

/-- JS property assignment `o[k] = v` on an insertion-ordered object:
overwrite in place when the name exists, append otherwise. -/
def JsFields.setKey : JsFields → String → JsValue → JsFields
  | .nil, k, v => .cons k v .nil
  | .cons n w rest, k, v =>
      if n = k then .cons n v rest else .cons n w (rest.setKey k v)

/-- Property access `v[k]` as used by `findNestedValue`.  On objects it is
a field lookup.  The extraction keys (`value`, `text`, `date`,
`countryName`, `checked`) are never array indices, and in JavaScript
`arr[k]` is `undefined` for each of them, so array index properties are
not modelled.  On primitives the caller has already returned. -/
def getProp (v : JsValue) (k : String) : Option JsValue :=
  match v with
  | .obj fs => fs.lookup k
  | _ => none

mutual

/-- `findNestedValue` from `1-entry/handle-entry.ts`: on a non-object,
return `undefined`; otherwise first probe the current node for each key
of the preference list in order, then recurse depth-first into the
children (in insertion order), skipping children that are `null`. -/
def findNestedValue : JsValue → List String → Option JsValue
  | .obj fs, keys =>
      match keys.findSome? (fun k => getProp (.obj fs) k) with
      | some r => some r
      | none => findInFields fs keys
  | .arr es, keys =>
      match keys.findSome? (fun k => getProp (.arr es) k) with
      | some r => some r
      | none => findInElems es keys
  | _, _ => none

/-- The `for (let subKey in obj)` recursion of `findNestedValue` over an
object's fields. -/
def findInFields : JsFields → List String → Option JsValue
  | .nil, _ => none
  | .cons _ v rest, keys =>
      match v with
      | .null => findInFields rest keys
      | w =>
          match findNestedValue w keys with
          | some r => some r
          | none => findInFields rest keys

/-- The same recursion over an array's elements. -/
def findInElems : JsList → List String → Option JsValue
  | .nil, _ => none
  | .cons v rest, keys =>
      match v with
      | .null => findInElems rest keys
      | w =>
          match findNestedValue w keys with
          | some r => some r
          | none => findInElems rest keys

end

mutual

/-- Whether some name from `keys` occurs as an object field name anywhere
inside the value (array elements are traversed; arrays themselves carry
no field names). -/
def hasKeyAmong : JsValue → List String → Bool
  | .obj fs, keys => hasKeyFields fs keys
  | .arr es, keys => hasKeyElems es keys
  | _, _ => false

/-- `hasKeyAmong` over an object's fields. -/
def hasKeyFields : JsFields → List String → Bool
  | .nil, _ => false
  | .cons n v rest, keys =>
      keys.contains n || hasKeyAmong v keys || hasKeyFields rest keys

/-- `hasKeyAmong` over an array's elements. -/
def hasKeyElems : JsList → List String → Bool
  | .nil, _ => false
  | .cons v rest, keys => hasKeyAmong v keys || hasKeyElems rest keys

end

/-- The ordered key preference list of `transformData`. -/
def preferenceKeys : List String := ["value", "text", "date", "countryName", "checked"]

/-- `MONDAY_FORM_FIELD_LOOKUP` from `1-entry/handle-entry.ts`: raw Monday
column id → canonical field name. -/
def MONDAY_FORM_FIELD_LOOKUP : List (String × String) :=
  [("date4", "form-start-date"),
   ("text7", "contact-name"),
   ("short_text04", "contact-role"),
   ("email4", "contact-email"),
   ("text3", "project-name"),
   ("country", "project-country"),
   ("true___false56", "monitoring-and-evaluation"),
   ("status1", "toc-design"),
   ("upload_file67", "toc-document-upload"),
   ("long_text23", "toc-key-activities-and-outcomes"),
   ("status7", "toc-strategic-integration"),
   ("long_text42", "toc-justification"),
   ("status4", "intended-unintended-outcomes"),
   ("long_text00", "intended-unintended-outcomes-justification"),
   ("single_select1", "beneficiaries-household-data"),
   ("long_text874", "beneficiaries-household-data-justification"),
   ("upload_file0", "beneficiaries-household-data-document-upload"),
   ("single_select9", "assessments"),
   ("long_text67", "assessments-justification"),
   ("upload_file06", "assessments-document-upload"),
   ("single_select16", "monitoring-activities"),
   ("long_text78", "monitoring-activities-justification"),
   ("single_select5", "framework-of-indicators"),
   ("long_text200", "framework-of-indicators-justification"),
   ("single_select54", "periodic-reporting"),
   ("long_text45", "periodic-reporting-justification"),
   ("single_select6", "beneficiary-surveys"),
   ("long_text99", "beneficiary-surveys-justification"),
   ("upload_file2", "beneficiary-surveys-document-upload"),
   ("single_select11", "external-contributions"),
   ("long_text672", "external-contributions-justification"),
   ("single_select96", "partner-contributions"),
   ("long_text780", "partner-contributions-justification"),
   ("single_select60", "beneficiaries-consent"),
   ("long_text86", "beneficiaries-consent-justification"),
   ("true___false", "impact-profile"),
   ("short_text", "selected-outcome"),
   ("number", "selected-outcome-scale"),
   ("single_select51", "selected-outcome-duration"),
   ("long_text35", "selected-outcome-justification"),
   ("upload_file4", "selected-outcome-document-upload"),
   ("single_select10", "degree-of-change"),
   ("long_text04", "degree-of-change-justification"),
   ("single_select7", "observed-results"),
   ("long_text20", "observed-results-justification"),
   ("long_text87", "observed-results-methodology"),
   ("upload_file3", "observed-results-document-upload"),
   ("single_select2", "observed-results-impact-theme"),
   ("single_select12", "observed-results-impact-theme-2"),
   ("number5", "observed-results-sdg-gain"),
   ("number7", "observed-results-additional-edu-years"),
   ("single_select42", "observed-results-associated-outcomes"),
   ("short_text0", "disability-treated"),
   ("number0", "morality-rate-percentage"),
   ("number2", "morality-rate-percentage-2"),
   ("short_text8", "outcome-impact-theme"),
   ("number1", "minutes-to-complete-assessment"),
   ("true___false6", "anonymized-data"),
   ("long_text0", "additional-comments")]

/-- `MONDAY_FORM_FIELD_LOOKUP[key] || key`: canonical name of a raw
field id (unknown ids pass through; the table's values are nonempty
strings, so the `||` fallback fires exactly on a missing entry). -/
def canonicalName (k : String) : String :=
  match List.lookup k MONDAY_FORM_FIELD_LOOKUP with
  | some v => v
  | none => k

/-- `findNestedValue(projectData[key], [...]) || 'empty'`: the extracted
value of one raw field — the first preferred value found, with the
sentinel `'empty'` substituted when nothing is found or the found value
is falsy (that is what `||` does). -/
def extractValue (v : JsValue) : JsValue :=
  match findNestedValue v preferenceKeys with
  | some w => if truthy w then w else .str "empty"
  | none => .str "empty"

/-- The `for (let key in projectData)` loop of `transformData`,
accumulating into the result object. -/
def transformFields : JsFields → JsFields → JsFields
  | .nil, acc => acc
  | .cons k v rest, acc =>
      transformFields rest (acc.setKey (canonicalName k) (extractValue v))

/-- `transformData` from `1-entry/handle-entry.ts`: rename every raw
field to its canonical name and extract its scalar value. -/
def transformData (projectData : JsFields) : JsFields :=
  transformFields projectData .nil

/-! ## String conversion and CSV rendering -/

/-- Decimal rendering of a JS integral number, as `String(n)` and
`JSON.stringify(n)` produce it. -/
def jsNumToString (n : Int) : String := toString n

mutual

/-- JavaScript `String(v)` on the modelled values: identity on strings,
decimal on numbers, `true`/`false`, `"null"`, `"[object Object]"` on
objects, and comma-joined element strings on arrays. -/
def jsToString : JsValue → String
  | .str s => s
  | .num n => jsNumToString n
  | .bool b => if b then "true" else "false"
  | .null => "null"
  | .obj _ => "[object Object]"
  | .arr es => jsArrJoin es

/-- `Array.prototype.toString`: elements joined by `,`, with `null`
elements rendered as the empty string. -/
def jsArrJoin : JsList → String
  | .nil => ""
  | .cons v rest =>
      (match v with
       | .null => ""
       | w => jsToString w) ++
      (match rest with
       | .nil => ""
       | .cons _ _ => "," ++ jsArrJoin rest)

end

/-- `s.replace(/"/g, '""')`: double every double quote. -/
def doubleQuotes (s : String) : String :=
  ⟨s.data.foldr (fun c acc => if c = '"' then '"' :: '"' :: acc else c :: acc) []⟩

/-- The rows built by `prepareCsvData` in `1-entry/handle-entry.ts`:
`"key","value"` with keys and values stringified and inner quotes
doubled, one row per entry in insertion order. -/
def prepareCsvRows : JsFields → List String
  | .nil => []
  | .cons k v rest =>
      ("\"" ++ doubleQuotes k ++ "\"" ++ "," ++ "\"" ++ doubleQuotes (jsToString v) ++ "\"")
        :: prepareCsvRows rest

/-- `prepareCsvData` from `1-entry/handle-entry.ts`: the rows joined by
newlines, no header. -/
def prepareCsvData (keyValues : JsFields) : String :=
  String.intercalate "\n" (prepareCsvRows keyValues)

/-- The rows built by `convertToCSV` in
`2-impact-assessment/generate-impact-assessment.ts` (a separate
transcription of that function's `Object.entries(...).map(...)`). -/
def convertToCSVRows : JsFields → List String
  | .nil => []
  | .cons k v rest =>
      ("\"" ++ doubleQuotes k ++ "\"" ++ "," ++ "\"" ++ doubleQuotes (jsToString v) ++ "\"")
        :: convertToCSVRows rest

/-- `convertToCSV` from
`2-impact-assessment/generate-impact-assessment.ts`. -/
def convertToCSV (keyValues : JsFields) : String :=
  String.intercalate "\n" (convertToCSVRows keyValues)

/-! ## `JSON.stringify`

`generateIdFromContent` hashes `JSON.stringify(content)`.  For objects,
`JSON.stringify` emits the members in the object's own insertion order —
it performs no key sorting. -/

/-- Lowercase hex digit. -/
def hexChar (n : Nat) : Char := "0123456789abcdef".data.getD n '0'

/-- JSON string escaping as `JSON.stringify` performs it: `"`, `\`, the
named control escapes, and `\u00XX` for the remaining control
characters. -/
def jsonEscapeChar (c : Char) : List Char :=
  if c = '"' then ['\\', '"']
  else if c = '\\' then ['\\', '\\']
  else if c = '\n' then ['\\', 'n']
  else if c = '\r' then ['\\', 'r']
  else if c = '\t' then ['\\', 't']
  else if c.toNat = 8 then ['\\', 'b']
  else if c.toNat = 12 then ['\\', 'f']
  else if c.toNat < 32 then
    ['\\', 'u', '0', '0', hexChar (c.toNat / 16), hexChar (c.toNat % 16)]
  else [c]

/-- A JSON-quoted string literal. -/
def jsonQuote (s : String) : String :=
  "\"" ++ String.mk (s.data.map jsonEscapeChar).flatten ++ "\""

mutual

/-- `JSON.stringify` on the modelled values (insertion-ordered members,
no key sorting). -/
def jsonStringify : JsValue → String
  | .str s => jsonQuote s
  | .num n => jsNumToString n
  | .bool b => if b then "true" else "false"
  | .null => "null"
  | .obj fs => "\x7b" ++ jsonMembers fs ++ "\x7d"
  | .arr es => "[" ++ jsonElements es ++ "]"

/-- Comma-separated `"key":value` members of an object. -/
def jsonMembers : JsFields → String
  | .nil => ""
  | .cons k v rest =>
      jsonQuote k ++ ":" ++ jsonStringify v ++
      (match rest with
       | .nil => ""
       | .cons _ _ _ => "," ++ jsonMembers rest)

/-- Comma-separated elements of an array. -/
def jsonElements : JsList → String
  | .nil => ""
  | .cons v rest =>
      jsonStringify v ++
      (match rest with
       | .nil => ""
       | .cons _ _ => "," ++ jsonElements rest)

end

/-! ## SHA-256

`crypto.createHash('sha256').update(str, 'utf8').digest('hex')` is
embedded as UTF-8 encoding followed by FIPS 180-4 SHA-256 over the byte
list, rendered as lowercase hex.  Words are `Nat` reduced modulo `2^32`
at every operation that can overflow. -/

/-- Truncation to a 32-bit word. -/
def w32 (x : Nat) : Nat := x % 4294967296

/-- UTF-8 encoding of one character. -/
def utf8EncodeChar (c : Char) : List Nat :=
  let n := c.toNat
  if n < 128 then [n]
  else if n < 2048 then [192 ||| (n >>> 6), 128 ||| (n &&& 63)]
  else if n < 65536 then
    [224 ||| (n >>> 12), 128 ||| ((n >>> 6) &&& 63), 128 ||| (n &&& 63)]
  else
    [240 ||| (n >>> 18), 128 ||| ((n >>> 12) &&& 63),
     128 ||| ((n >>> 6) &&& 63), 128 ||| (n &&& 63)]

/-- UTF-8 encoding of a string, as `update(str, 'utf8')` consumes it. -/
def utf8Bytes (s : String) : List Nat :=
  (s.data.map utf8EncodeChar).flatten

/-- Right rotation of a 32-bit word. -/
def rotr32 (x n : Nat) : Nat := w32 ((x >>> n) ||| (x <<< (32 - n)))

/-- Bitwise complement on 32 bits. -/
def not32 (x : Nat) : Nat := x ^^^ 4294967295

/-- SHA-256 `Ch`. -/
def ch32 (x y z : Nat) : Nat := (x &&& y) ^^^ (not32 x &&& z)

/-- SHA-256 `Maj`. -/
def maj32 (x y z : Nat) : Nat := (x &&& y) ^^^ (x &&& z) ^^^ (y &&& z)

/-- SHA-256 `Σ₀`. -/
def bigSigma0 (x : Nat) : Nat := rotr32 x 2 ^^^ rotr32 x 13 ^^^ rotr32 x 22

/-- SHA-256 `Σ₁`. -/
def bigSigma1 (x : Nat) : Nat := rotr32 x 6 ^^^ rotr32 x 11 ^^^ rotr32 x 25

/-- SHA-256 `σ₀`. -/
def smallSigma0 (x : Nat) : Nat := rotr32 x 7 ^^^ rotr32 x 18 ^^^ (x >>> 3)

/-- SHA-256 `σ₁`. -/
def smallSigma1 (x : Nat) : Nat := rotr32 x 17 ^^^ rotr32 x 19 ^^^ (x >>> 10)

/-- The sixty-four SHA-256 round constants. -/
def shaK : List Nat :=
  [1116352408, 1899447441, 3049323471, 3921009573, 961987163,
   1508970993, 2453635748, 2870763221, 3624381080, 310598401,
   607225278, 1426881987, 1925078388, 2162078206, 2614888103,
   3248222580, 3835390401, 4022224774, 264347078, 604807628,
   770255983, 1249150122, 1555081692, 1996064986, 2554220882,
   2821834349, 2952996808, 3210313671, 3336571891, 3584528711,
   113926993, 338241895, 666307205, 773529912, 1294757372,
   1396182291, 1695183700, 1986661051, 2177026350, 2456956037,
   2730485921, 2820302411, 3259730800, 3345764771, 3516065817,
   3600352804, 4094571909, 275423344, 430227734, 506948616,
   659060556, 883997877, 958139571, 1322822218, 1537002063,
   1747873779, 1955562222, 2024104815, 2227730452, 2361852424,
   2428436474, 2756734187, 3204031479, 3329325298]

/-- The eight SHA-256 initial hash values. -/
def shaH0 : List Nat :=
  [1779033703, 3144134277, 1013904242, 2773480762,
   1359893119, 2600822924, 528734635, 1541459225]

/-- Big-endian bytes of an `n`-byte integer. -/
def beBytes (count x : Nat) : List Nat :=
  (List.range count).map (fun i => (x >>> (8 * (count - 1 - i))) &&& 255)

/-- FIPS 180-4 padding: `0x80`, zeros to 56 mod 64, then the 64-bit
big-endian bit length. -/
def shaPad (msg : List Nat) : List Nat :=
  let len := msg.length
  msg ++ [128] ++ List.replicate ((119 - len % 64) % 64) 0 ++ beBytes 8 (len * 8)

/-- The sixteen 32-bit big-endian message words of block `i`. -/
def blockWords (padded : List Nat) (i : Nat) : List Nat :=
  (List.range 16).map (fun j =>
    let o := 64 * i + 4 * j
    (padded.getD o 0 <<< 24) ||| (padded.getD (o + 1) 0 <<< 16) |||
    (padded.getD (o + 2) 0 <<< 8) ||| padded.getD (o + 3) 0)

/-- The 64-word message schedule extending the block words. -/
def messageSchedule (first16 : List Nat) : List Nat :=
  (List.range 48).foldl
    (fun ws t =>
      ws ++ [w32 (smallSigma1 (ws.getD (t + 14) 0) + ws.getD (t + 9) 0 +
                  smallSigma0 (ws.getD (t + 1) 0) + ws.getD t 0)])
    first16

/-- The eight 32-bit working registers of the compression loop. -/
structure Sha256Regs where
  a : Nat
  b : Nat
  c : Nat
  d : Nat
  e : Nat
  f : Nat
  g : Nat
  h : Nat

/-- One compression round with round constant `k` and schedule word `w`. -/
def shaRound (st : Sha256Regs) (kw : Nat × Nat) : Sha256Regs :=
  let t1 := w32 (st.h + bigSigma1 st.e + ch32 st.e st.f st.g + kw.1 + kw.2)
  let t2 := w32 (bigSigma0 st.a + maj32 st.a st.b st.c)
  ⟨w32 (t1 + t2), st.a, st.b, st.c, w32 (st.d + t1), st.e, st.f, st.g⟩

/-- Compress one block into the running eight-word hash value. -/
def shaCompress (hs : List Nat) (words : List Nat) : List Nat :=
  let sched := messageSchedule words
  let st0 : Sha256Regs :=
    ⟨hs.getD 0 0, hs.getD 1 0, hs.getD 2 0, hs.getD 3 0,
     hs.getD 4 0, hs.getD 5 0, hs.getD 6 0, hs.getD 7 0⟩
  let st := (shaK.zip sched).foldl shaRound st0
  [w32 (hs.getD 0 0 + st.a), w32 (hs.getD 1 0 + st.b),
   w32 (hs.getD 2 0 + st.c), w32 (hs.getD 3 0 + st.d),
   w32 (hs.getD 4 0 + st.e), w32 (hs.getD 5 0 + st.f),
   w32 (hs.getD 6 0 + st.g), w32 (hs.getD 7 0 + st.h)]

/-- SHA-256 of a byte list, as 32 bytes. -/
def sha256Bytes (msg : List Nat) : List Nat :=
  let padded := shaPad msg
  let final := (List.range (padded.length / 64)).foldl
    (fun hs i => shaCompress hs (blockWords padded i)) shaH0
  (final.map (beBytes 4)).flatten

/-- Lowercase hex rendering of a byte list, as `digest('hex')`. -/
def bytesToHex (bs : List Nat) : String :=
  String.join (bs.map (fun b => String.mk [hexChar (b / 16), hexChar (b % 16)]))

/-- `generateIdFromContent` from `1-entry/handle-entry.ts`:
`sha256(JSON.stringify(content))` in lowercase hex.  The serialisation is
plain `JSON.stringify`, which follows the object's insertion order. -/
def generateIdFromContent (content : JsFields) : String :=
  bytesToHex (sha256Bytes (utf8Bytes (jsonStringify (.obj content))))

/-! ## Entry-handler side effects

`handleCreatePulseEvent` performs three writes: the raw CSV to S3, the
item to DynamoDB, and a Step Functions `StartExecution`.  The external
world is modelled as `AwsState`; every write is unconditional in the
source — `PutItem` carries no `ConditionExpression` (so it overwrites by
partition key `id`), and `StartExecution` is sent without an execution
name (so every call starts a fresh execution). -/

/-- First value under a key in a generic association list. -/
def assocLookup {α : Type} : List (String × α) → String → Option α
  | [], _ => none
  | (n, v) :: rest, k => if n = k then some v else assocLookup rest k

/-- Replace the first entry under a key, appending when absent — the
overwrite semantics of a keyed store (`PutItem`, S3 object keys). -/
def assocSet {α : Type} : List (String × α) → String → α → List (String × α)
  | [], k, v => [(k, v)]
  | (n, w) :: rest, k, v =>
      if n = k then (n, v) :: rest else (n, w) :: assocSet rest k v

/-- A DynamoDB attribute value as `saveToDynamoDB` builds them. -/
inductive AttrVal where
  | S (s : String)
  | N (s : String)
  | BOOL (b : Bool)
deriving DecidableEq

/-- The attribute loop of `saveToDynamoDB`: strings map to `S`, numbers
to `N` (decimal string), booleans to `BOOL`; any other value type is
logged and skipped (`continue`). -/
def dynamoItemFields : JsFields → List (String × AttrVal)
  | .nil => []
  | .cons k v rest =>
      match v with
      | .str s => (k, .S s) :: dynamoItemFields rest
      | .num n => (k, .N (jsNumToString n)) :: dynamoItemFields rest
      | .bool b => (k, .BOOL b) :: dynamoItemFields rest
      | _ => dynamoItemFields rest

/-- The item `saveToDynamoDB` writes: `id` is the content hash, followed
by the converted attributes. -/
def dynamoItem (keyValues : JsFields) : List (String × AttrVal) :=
  ("id", .S (generateIdFromContent keyValues)) :: dynamoItemFields keyValues

/-- The modelled external world of the entry handler: the S3 bucket, the
DynamoDB table keyed by the partition key `id`, and the list of Step
Functions executions started so far (each recorded by its JSON input). -/
structure AwsState where
  s3Objects : List (String × String)
  dynamoTable : List (String × List (String × AttrVal))
  executions : List String
deriving DecidableEq

/-- The empty external world. -/
def emptyAwsState : AwsState := ⟨[], [], []⟩

/-- `handleCreatePulseEvent` from `1-entry/handle-entry.ts`, as its
effect on the external world: transform the raw column values, upload
the CSV under `<pulseName>/impactAssessmentRaw.csv`, `PutItem` the item
keyed by the content hash (unconditional overwrite), and start one new
Step Functions execution with the transformed data as input. -/
def handleCreatePulseEvent (pulseName : String) (columnValues : JsFields)
    (st : AwsState) : AwsState :=
  let keyValues := transformData columnValues
  { s3Objects :=
      assocSet st.s3Objects (pulseName ++ "/impactAssessmentRaw.csv")
        (prepareCsvData keyValues)
    dynamoTable :=
      assocSet st.dynamoTable (generateIdFromContent keyValues)
        (dynamoItem keyValues)
    executions := st.executions ++ [jsonStringify (.obj keyValues)] }

/-! ## Scoring engine

`calculateScore` from `2-impact-assessment/generate-impact-assessment.ts`.
The rubric (`DIMENSIONS`, `QUESTIONS` from `./scoring-key`, a static data
module) is kept abstract: `DIMENSIONS` is an association list of
dimension name → weight, `QUESTIONS` a list of `Question`s.  Scores and
weights are `Rat`; `Math.round` is `jsRound`.  Because they model
JavaScript objects, the dimension list is assumed to have distinct names
wherever that matters (stated as a hypothesis). -/

/-- One entry of `QUESTIONS`: the submission field it scores, the
dimension it is bound to, its weight, and its allowed-answer → point
mapping. -/
structure Question where
  question : String
  dimension : String
  weight : Rat
  responses : List (String × Rat)
deriving DecidableEq

/-- JavaScript `Math.round` on finite values: round half up. -/
def jsRound (x : Rat) : Int := ⌊x + 1 / 2⌋

/-- Read of an accumulator object entry, defaulting to `0`; the
accumulators are initialised with every dimension of `DIMENSIONS`, so
the default is never consulted on the keys the result loops read. -/
def assocGetD (l : List (String × Rat)) (k : String) : Rat :=
  (assocLookup l k).getD 0

/-- `obj[k] += x` on an accumulator object: add into the first entry
under `k`.  When `k` is absent (a question bound to a dimension outside
`DIMENSIONS`) JavaScript would store `NaN` under a key the result loops
never read; the model stores `x` there instead, equally unread. -/
def assocAdd : List (String × Rat) → String → Rat → List (String × Rat)
  | [], k, x => [(k, x)]
  | (n, v) :: rest, k, x =>
      if n = k then (n, v + x) :: rest else (n, v) :: assocAdd rest k x

/-- `question.responses[projectData[question.question]]`: the submitted
answer's point value, when the field is present and the answer is one of
the question's scored choices. -/
def answerValue (q : Question) (projectData : List (String × String)) : Option Rat :=
  (assocLookup projectData q.question).bind (fun a => assocLookup q.responses a)

/-- `question.responses[...] || 0`: the point value actually scored —
`0` when the answer is missing or unmatched (a present value of `0`
also passes through `||` as `0`). -/
def responseScore (q : Question) (projectData : List (String × String)) : Rat :=
  (answerValue q projectData).getD 0

/-- `Math.max(...Object.values(question.responses))`.  JavaScript's
`Math.max()` of an empty spread is `-Infinity`; the rubric invariant
(every question declares at least one scored answer) excludes that case,
and the theorems carry it as a hypothesis.  On the empty list this model
returns `0`. -/
def maxPoints (q : Question) : Rat :=
  match q.responses with
  | [] => 0
  | r :: rest => rest.foldl (fun m p => max m p.2) r.2

/-- The accumulator objects of `calculateScore` (`rawScores`,
`weightedScores`, `maxWeightedScores`) plus the `console.error`
diagnostics emitted for unmatched answers. -/
structure ScoreState where
  rawScores : List (String × Rat)
  weightedScores : List (String × Rat)
  maxWeightedScores : List (String × Rat)
  diagnostics : List String

/-- The initialisation loop: every dimension of `DIMENSIONS` starts at
`0` in both accumulators (`dimensionResults` is also zero-initialised in
the source but every entry is overwritten by the result loop, so it is
computed directly below). -/
def initScores (dims : List (String × Rat)) : ScoreState :=
  { rawScores := []
    weightedScores := dims.map (fun p => (p.1, 0))
    maxWeightedScores := dims.map (fun p => (p.1, 0))
    diagnostics := [] }

/-- The body of `QUESTIONS.forEach`: record the diagnostic when the
answer is not a scored choice, record the raw score, and add the rounded
weighted score and rounded weighted maximum into the question's
dimension. -/
def scoreStep (projectData : List (String × String)) (st : ScoreState)
    (q : Question) : ScoreState :=
  { rawScores := assocSet st.rawScores q.question (responseScore q projectData)
    weightedScores :=
      assocAdd st.weightedScores q.dimension
        ((jsRound (responseScore q projectData * q.weight) : Int) : Rat)
    maxWeightedScores :=
      assocAdd st.maxWeightedScores q.dimension
        ((jsRound (maxPoints q * q.weight) : Int) : Rat)
    diagnostics :=
      match answerValue q projectData with
      | none => st.diagnostics ++ [q.question]
      | some _ => st.diagnostics }

/-- The accumulation phase of `calculateScore`. -/
def runScores (dims : List (String × Rat)) (qs : List Question)
    (projectData : List (String × String)) : ScoreState :=
  qs.foldl (scoreStep projectData) (initScores dims)

/-- The value returned by `calculateScore`, plus the diagnostics. -/
structure ScoreResult where
  dimensionResults : List (String × Rat)
  totalScore : Int
  diagnostics : List String

/-- `calculateScore`: accumulate per-question weighted scores and maxima
per dimension, then per dimension the percentage
`weighted / maxWeighted * 100`, and the total
`Math.round(totalWeighted / totalMaxWeighted * 100)` with the
dimension-weighted aggregates.  Division is `Rat` division: a dimension
whose accumulated maximum is `0` makes the source compute `0/0` (`NaN`
in JavaScript, `0` in this model) — no error path exists. -/
def calculateScore (dims : List (String × Rat)) (qs : List Question)
    (projectData : List (String × String)) : ScoreResult :=
  let st := runScores dims qs projectData
  { dimensionResults :=
      dims.map (fun p =>
        (p.1, assocGetD st.weightedScores p.1 / assocGetD st.maxWeightedScores p.1 * 100))
    totalScore :=
      jsRound ((dims.map (fun p => assocGetD st.weightedScores p.1 * p.2)).sum /
               (dims.map (fun p => assocGetD st.maxWeightedScores p.1 * p.2)).sum * 100)
    diagnostics := st.diagnostics }

/-- The per-dimension weighted sum in closed form:
`Σ round(points(answer) · weight)` over the questions bound to `d`. -/
def weightedSumQ (qs : List Question) (projectData : List (String × String))
    (d : String) : Rat :=
  ((qs.filter (fun q => q.dimension = d)).map
    (fun q => ((jsRound (responseScore q projectData * q.weight) : Int) : Rat))).sum

/-- The per-dimension maximum in closed form:
`Σ round(max(points) · weight)` over the questions bound to `d` —
independent of the submission. -/
def maxWeightedSumQ (qs : List Question) (d : String) : Rat :=
  ((qs.filter (fun q => q.dimension = d)).map
    (fun q => ((jsRound (maxPoints q * q.weight) : Int) : Rat))).sum

/-- The questions whose submitted answer is not among their scored
choices, in order — the diagnostics `calculateScore` logs. -/
def unmatchedQuestions (qs : List Question)
    (projectData : List (String × String)) : List String :=
  (qs.filter (fun q => (answerValue q projectData).isNone)).map (fun q => q.question)

/-! ## Decision endpoints

`4-approval/handle-approval.ts` and `5-waitlist/handle-waitlist.ts` read
the `taskToken` query parameter and call Step Functions
`SendTaskSuccess`; the token registry behind that call lives in AWS, not
in this repository, so it is modelled from the spec.  Response bodies
are informational strings and are elided; only the status codes matter
to the claims. -/

/-- Modelled from the spec: the Step Functions task-token registry the
handlers call into (the spec's ContinuationToken → WorkflowInstance
index).  Each outstanding token maps to `none`; a redeemed token maps to
`some decision`.  Unknown and redeemed tokens are indistinguishable from
outstanding ones only to the caller — `SendTaskSuccess` rejects both. -/
structure TokenStore where
  tokens : List (String × Option String)
deriving DecidableEq

/-- Modelled from the spec: `SendTaskSuccess` — succeeds exactly once
per token, atomically recording the decision; a second send for the same
token, or a send for an unknown token, throws (modelled as `none`). -/
def sendTaskSuccess (ts : TokenStore) (token decision : String) : Option TokenStore :=
  match assocLookup ts.tokens token with
  | some none => some ⟨assocSet ts.tokens token (some decision)⟩
  | _ => none

/-- The decision currently recorded against a token. -/
def decisionOf (ts : TokenStore) (token : String) : Option String :=
  match assocLookup ts.tokens token with
  | some (some d) => some d
  | _ => none

/-- The handler of `4-approval/handle-approval.ts`: missing (or empty —
`!taskToken`) token → `400`; otherwise `SendTaskSuccess` with output
`decision: 'approve'` — `200` on success, `500` when the send throws.
Returns the status code and the resulting token registry. -/
def handleApproval (taskToken : Option String) (ts : TokenStore) :
    Nat × TokenStore :=
  match taskToken with
  | none => (400, ts)
  | some t =>
      if t = "" then (400, ts)
      else
        match sendTaskSuccess ts t "approve" with
        | some ts2 => (200, ts2)
        | none => (500, ts)

/-- The handler of `5-waitlist/handle-waitlist.ts`: identical shape with
output `decision: 'waitlist'`. -/
def handleWaitlist (taskToken : Option String) (ts : TokenStore) :
    Nat × TokenStore :=
  match taskToken with
  | none => (400, ts)
  | some t =>
      if t = "" then (400, ts)
      else
        match sendTaskSuccess ts t "waitlist" with
        | some ts2 => (200, ts2)
        | none => (500, ts)

/-! ## Workflow timeout configuration

From `lib/supply-funnel-stack.ts` (the current revision, the one whose
state machine includes the impact-assessment step and the
`4-approval` / `5-waitlist` handlers): `RequestAdminDecisionState` is a
`WAIT_FOR_TASK_TOKEN` task with
`taskTimeout: sfn.Timeout.duration(cdk.Duration.days(364))`, and
`supplyFunnelStateMachine` sets no machine-level `timeout`.  (An earlier
revision kept in the repository, `adminDecisionStateMachine`, instead set
a five-minute machine timeout and no task timeout.) -/

/-- The `taskTimeout` of `RequestAdminDecisionState`, in days. -/
def adminDecisionTaskTimeoutDays : Nat := 364

/-- The machine-level `timeout` of `supplyFunnelStateMachine`: none is
configured. -/
def supplyFunnelMachineTimeoutDays : Option Nat := none

/-- Outcome of an instance that has been sitting in the
awaiting-decision state for a given number of days. -/
inductive PendingOutcome where
  | stillPending
  | failed (reason : String)
deriving DecidableEq

/-- Modelled from the spec: the timeout semantics of a suspended
`WAIT_FOR_TASK_TOKEN` task — the instance stays pending (redeemable)
until either the machine-level timeout or the task timeout elapses;
past the earlier of the configured bounds it transitions to `Failed`
with reason `decision-timeout` (the spec's name for the timeout error).
Instantiated with the configured values above: a 364-day task timeout
and no machine timeout. -/
def awaitingDecisionAfter (elapsedDays : Nat) : PendingOutcome :=
  let machineExpired :=
    match supplyFunnelMachineTimeoutDays with
    | some m => decide (m < elapsedDays)
    | none => false
  if machineExpired || decide (adminDecisionTaskTimeoutDays < elapsedDays) then
    .failed "decision-timeout"
  else
    .stillPending

/-! ## Concrete sample inputs used by the theorems -/

/-- The fields of an object as a plain list, for permutation
statements. -/
def JsFields.toList : JsFields → List (String × JsValue)
  | .nil => []
  | .cons n v rest => (n, v) :: rest.toList

/-- A two-field webhook payload: contact name first, project name
second. -/
def samplePayloadA : JsFields :=
  .cons "text7" (.obj (.cons "text" (.str "Ada") .nil))
    (.cons "text3" (.obj (.cons "text" (.str "Well") .nil)) .nil)

/-- The same two fields in the opposite order. -/
def samplePayloadB : JsFields :=
  .cons "text3" (.obj (.cons "text" (.str "Well") .nil))
    (.cons "text7" (.obj (.cons "text" (.str "Ada") .nil)) .nil)

/-- A payload whose only field carries `checked: false` — the `checked`
key is present but its value is falsy. -/
def sampleCheckedPayload : JsFields :=
  .cons "true___false56" (.obj (.cons "checked" (.bool false) .nil)) .nil

/-- A one-dimension rubric with positive weights whose single question
carries only negative point values. -/
def negRubricDims : List (String × Rat) := [("d", 1)]

/-- The question list of the negative-points rubric. -/
def negRubricQs : List Question := [⟨"q1", "d", 1, [("a", -5), ("b", -1)]⟩]

/-- A submission answering the negative-points question with its
lowest-scoring choice. -/
def negRubricData : List (String × String) := [("q1", "a")]

/-- A rubric containing a dimension with zero questions. -/
def zeroQuestionDims : List (String × Rat) := [("governance", 1)]

/-- A small well-formed rubric: one dimension, two questions with
nonnegative points. -/
def sampleDims : List (String × Rat) := [("d", 2)]

/-- The questions of the small rubric. -/
def sampleQs : List Question :=
  [⟨"q1", "d", 1, [("yes", 2), ("no", 0)]⟩,
   ⟨"q2", "d", 2, [("high", 3), ("low", 1)]⟩]

/-- A submission answering `q1` correctly and `q2` outside its scored
choices. -/
def sampleWrongData : List (String × String) := [("q1", "yes"), ("q2", "maybe")]

/-! # Theorems

Shared helper lemmas first, then one theorem per claim (with witnesses
where the claim's theorem carries hypotheses). -/

/-- The row builders of the two CSV renderers agree on every object. -/
theorem csvRows_eq : (kvs : JsFields) → prepareCsvRows kvs = convertToCSVRows kvs
  | .nil => rfl
  | .cons _ _ rest => by simp [prepareCsvRows, convertToCSVRows, csvRows_eq rest]

/-- Writing a key makes it readable. -/
theorem assocLookup_assocSet_self {α : Type} (l : List (String × α)) (k : String) (v : α) :
    assocLookup (assocSet l k v) k = some v := by
  induction l with
  | nil => simp [assocSet, assocLookup]
  | cons p rest ih =>
      obtain ⟨n, w⟩ := p
      by_cases h : n = k
      · simp [assocSet, assocLookup, h]
      · simp [assocSet, assocLookup, h, ih]

/-- C10: the CSV renderer duplicated in the entry lambda
(`prepareCsvData`) and in the impact-assessment lambda (`convertToCSV`)
are extensionally equal: on every key/value object both produce the same
string — one `"key","value"` row per entry with inner double quotes
doubled, rows joined by newlines, no header. -/
theorem prepareCsvData_eq_convertToCSV (kvs : JsFields) :
    prepareCsvData kvs = convertToCSV kvs := by
  simp [prepareCsvData, convertToCSV, csvRows_eq]

/-- C9: an instance may stay suspended in the awaiting-decision state
for the full configured maximum pending lifetime — 364 days, within one
year — with no earlier bound terminating it (the state machine sets no
machine-level timeout); only past that lifetime does it transition to
`Failed` with reason `decision-timeout`. -/
theorem awaitingDecision_timeout_policy :
    (∀ d : Nat, d ≤ adminDecisionTaskTimeoutDays →
        awaitingDecisionAfter d = .stillPending)
    ∧ (∀ d : Nat, adminDecisionTaskTimeoutDays < d →
        awaitingDecisionAfter d = .failed "decision-timeout")
    ∧ adminDecisionTaskTimeoutDays = 364
    ∧ supplyFunnelMachineTimeoutDays = none := by
  refine ⟨?_, ?_, rfl, rfl⟩ <;> intro d h <;>
    simp only [adminDecisionTaskTimeoutDays] at h
  · simp [awaitingDecisionAfter, supplyFunnelMachineTimeoutDays,
      adminDecisionTaskTimeoutDays, decide_eq_false (Nat.not_lt.mpr h)]
  · simp [awaitingDecisionAfter, supplyFunnelMachineTimeoutDays,
      adminDecisionTaskTimeoutDays, decide_eq_true h]

/-- Witness for C9: at 100 days the instance is still pending; at 400
days it has failed with reason `decision-timeout`. -/
theorem awaitingDecision_timeout_policy_witness :
    awaitingDecisionAfter 100 = .stillPending
    ∧ awaitingDecisionAfter 400 = .failed "decision-timeout" :=
  ⟨awaitingDecision_timeout_policy.1 100 (by decide),
   awaitingDecision_timeout_policy.2.1 400 (by decide)⟩

/-- C8: on both decision endpoints a request with no (or empty) token
returns `400` and changes nothing; an unknown or already-redeemed token
returns `500` (the conflict-class path) and changes nothing; and once a
token is redeemed with a decision, any second redemption of it — by
either endpoint — fails with `500` while the recorded decision still
reflects only the first redemption. -/
theorem decision_endpoints_single_use :
    (∀ ts, handleApproval none ts = (400, ts) ∧ handleWaitlist none ts = (400, ts))
    ∧ (∀ ts t, t ≠ "" → assocLookup ts.tokens t = none →
        handleApproval (some t) ts = (500, ts) ∧ handleWaitlist (some t) ts = (500, ts))
    ∧ (∀ ts t d, t ≠ "" → assocLookup ts.tokens t = some (some d) →
        handleApproval (some t) ts = (500, ts) ∧ handleWaitlist (some t) ts = (500, ts)
        ∧ decisionOf ts t = some d)
    ∧ (∀ ts t, t ≠ "" → assocLookup ts.tokens t = some none →
        ∃ ts2, handleApproval (some t) ts = (200, ts2)
          ∧ decisionOf ts2 t = some "approve"
          ∧ handleApproval (some t) ts2 = (500, ts2)
          ∧ handleWaitlist (some t) ts2 = (500, ts2)) := by
  refine ⟨fun ts => ⟨rfl, rfl⟩, ?_, ?_, ?_⟩
  · intro ts t ht hl
    constructor <;> simp [handleApproval, handleWaitlist, sendTaskSuccess, ht, hl]
  · intro ts t d ht hl
    refine ⟨?_, ?_, ?_⟩ <;>
      simp [handleApproval, handleWaitlist, sendTaskSuccess, decisionOf, ht, hl]
  · intro ts t ht hl
    refine ⟨⟨assocSet ts.tokens t (some "approve")⟩, ?_, ?_, ?_, ?_⟩
    · simp [handleApproval, sendTaskSuccess, ht, hl]
    · simp [decisionOf, assocLookup_assocSet_self]
    · simp [handleApproval, sendTaskSuccess, ht, assocLookup_assocSet_self]
    · simp [handleWaitlist, sendTaskSuccess, ht, assocLookup_assocSet_self]

set_option maxRecDepth 100000 in
/-- C1 (code bug evidence): two webhook payloads carrying the same two
fields in opposite orders normalise to objects that are equal as sets of
field/value pairs, yet `generateIdFromContent` gives them different
digests — `JSON.stringify` serialises in insertion order, not in a
canonical key order, so the identity is not order-invariant. -/
theorem generateId_not_order_invariant :
    (transformData samplePayloadA).toList.Perm (transformData samplePayloadB).toList
    ∧ generateIdFromContent (transformData samplePayloadA)
        ≠ generateIdFromContent (transformData samplePayloadB) := by
  constructor
  · show ([("contact-name", JsValue.str "Ada"), ("project-name", JsValue.str "Well")]).Perm
      [("project-name", JsValue.str "Well"), ("contact-name", JsValue.str "Ada")]
    exact List.Perm.swap _ _ _
  · decide

set_option maxRecDepth 100000 in
/-- C2 (code bug evidence): intaking the identical payload twice leaves
one stored record (the unconditional `PutItem` overwrites the same `id`)
but starts two Step Functions executions — nothing is conditional on the
identity being absent, so the second intake does start a second workflow
instance. -/
theorem second_intake_starts_second_execution :
    (handleCreatePulseEvent "Well" samplePayloadA
        (handleCreatePulseEvent "Well" samplePayloadA emptyAwsState)).executions.length = 2
    ∧ (handleCreatePulseEvent "Well" samplePayloadA
        (handleCreatePulseEvent "Well" samplePayloadA emptyAwsState)).dynamoTable.length = 1 := by
  constructor <;> decide

/-- A successful field lookup under a key from `keys` means the object's
top level hits `hasKeyFields`. -/
theorem hasKeyFields_of_lookup : ∀ (fs : JsFields) (keys : List String) (k : String)
    (v : JsValue), k ∈ keys → JsFields.lookup fs k = some v → hasKeyFields fs keys = true
  | .nil, _, _, _, _, hl => by simp [JsFields.lookup] at hl
  | .cons n w rest, keys, k, v, hk, hl => by
      rw [JsFields.lookup] at hl
      by_cases h : n = k
      · subst h
        simp [hasKeyFields, hk]
      · rw [if_neg h] at hl
        simp [hasKeyFields, hasKeyFields_of_lookup rest keys k v hk hl]

mutual

/-- The depth-first search finds nothing exactly when no key from the
list occurs as a field name anywhere in the value. -/
theorem findNestedValue_eq_none_iff : ∀ (v : JsValue) (keys : List String),
    findNestedValue v keys = none ↔ hasKeyAmong v keys = false
  | .str _, keys => by simp [findNestedValue, hasKeyAmong]
  | .num _, keys => by simp [findNestedValue, hasKeyAmong]
  | .bool _, keys => by simp [findNestedValue, hasKeyAmong]
  | .null, keys => by simp [findNestedValue, hasKeyAmong]
  | .obj fs, keys => by
      rw [findNestedValue, hasKeyAmong]
      cases h : keys.findSome? (fun k => getProp (.obj fs) k) with
      | none =>
          simp only [h]
          constructor
          · intro hf
            exact (findInFields_eq_none_iff fs keys).mp ⟨h, hf⟩
          · intro hb
            exact ((findInFields_eq_none_iff fs keys).mpr hb).2
      | some r =>
          simp only [h, reduceCtorEq, false_iff]
          obtain ⟨k, hk, hl⟩ := List.exists_of_findSome?_eq_some h
          simp [hasKeyFields_of_lookup fs keys k r hk hl]
  | .arr es, keys => by
      rw [findNestedValue, hasKeyAmong]
      have h : keys.findSome? (fun k => getProp (.arr es) k) = none :=
        List.findSome?_eq_none_iff.mpr (fun _ _ => rfl)
      simp only [h]
      exact findInElems_eq_none_iff es keys

/-- Over an object's fields: the top-level probe and the child recursion
both find nothing exactly when no key occurs in any field. -/
theorem findInFields_eq_none_iff : ∀ (fs : JsFields) (keys : List String),
    (keys.findSome? (fun k => getProp (.obj fs) k) = none
      ∧ findInFields fs keys = none)
      ↔ hasKeyFields fs keys = false
  | .nil, keys => by
      simp [findInFields, hasKeyFields, List.findSome?_eq_none_iff, getProp,
        JsFields.lookup]
  | .cons n v rest, keys => by
      have hS : keys.findSome? (fun k => getProp (.obj (.cons n v rest)) k) = none
          ↔ n ∉ keys ∧ keys.findSome? (fun k => getProp (.obj rest) k) = none := by
        rw [List.findSome?_eq_none_iff, List.findSome?_eq_none_iff]
        constructor
        · intro h
          refine ⟨fun hn => by simpa [getProp, JsFields.lookup] using h n hn,
            fun k hk => ?_⟩
          have := h k hk
          by_cases e : n = k
          · simp [getProp, JsFields.lookup, e] at this
          · simpa [getProp, JsFields.lookup, e] using this
        · rintro ⟨h1, h2⟩ k hk
          have e : ¬ n = k := fun e => h1 (e ▸ hk)
          simpa [getProp, JsFields.lookup, e] using h2 k hk
      have hF : findInFields (.cons n v rest) keys = none
          ↔ findNestedValue v keys = none ∧ findInFields rest keys = none := by
        cases v with
        | null => simp [findInFields, findNestedValue]
        | str s =>
            cases h : findNestedValue (JsValue.str s) keys <;>
              simp [findInFields, h]
        | num m =>
            cases h : findNestedValue (JsValue.num m) keys <;>
              simp [findInFields, h]
        | bool b =>
            cases h : findNestedValue (JsValue.bool b) keys <;>
              simp [findInFields, h]
        | obj fs2 =>
            cases h : findNestedValue (JsValue.obj fs2) keys <;>
              simp [findInFields, h]
        | arr es2 =>
            cases h : findNestedValue (JsValue.arr es2) keys <;>
              simp [findInFields, h]
      rw [hF]
      constructor
      · rintro ⟨hs, hv, hrest⟩
        obtain ⟨h1, h2⟩ := hS.mp hs
        simp only [hasKeyFields, Bool.or_eq_false_iff]
        exact ⟨⟨by simpa using h1,
          (findNestedValue_eq_none_iff v keys).mp hv⟩,
          (findInFields_eq_none_iff rest keys).mp ⟨h2, hrest⟩⟩
      · intro hb
        simp only [hasKeyFields, Bool.or_eq_false_iff] at hb
        obtain ⟨⟨hc, hv⟩, hr⟩ := hb
        obtain ⟨h2, hrest⟩ := (findInFields_eq_none_iff rest keys).mpr hr
        refine ⟨hS.mpr ⟨by simpa using hc, h2⟩,
          (findNestedValue_eq_none_iff v keys).mpr hv, hrest⟩

/-- Over an array's elements: the recursion finds nothing exactly when
no key occurs in any element. -/
theorem findInElems_eq_none_iff : ∀ (es : JsList) (keys : List String),
    findInElems es keys = none ↔ hasKeyElems es keys = false
  | .nil, keys => by simp [findInElems, hasKeyElems]
  | .cons v rest, keys => by
      have hF : findInElems (.cons v rest) keys = none
          ↔ findNestedValue v keys = none ∧ findInElems rest keys = none := by
        cases v with
        | null => simp [findInElems, findNestedValue]
        | str s =>
            cases h : findNestedValue (JsValue.str s) keys <;>
              simp [findInElems, h]
        | num m =>
            cases h : findNestedValue (JsValue.num m) keys <;>
              simp [findInElems, h]
        | bool b =>
            cases h : findNestedValue (JsValue.bool b) keys <;>
              simp [findInElems, h]
        | obj fs2 =>
            cases h : findNestedValue (JsValue.obj fs2) keys <;>
              simp [findInElems, h]
        | arr es2 =>
            cases h : findNestedValue (JsValue.arr es2) keys <;>
              simp [findInElems, h]
      rw [hF, hasKeyElems, Bool.or_eq_false_iff]
      exact and_congr (findNestedValue_eq_none_iff v keys)
        (findInElems_eq_none_iff rest keys)

end

/-- A key just written is readable. -/
theorem JsFields.lookup_setKey_self : ∀ (fs : JsFields) (k : String) (v : JsValue),
    JsFields.lookup (fs.setKey k v) k = some v
  | .nil, k, v => by simp [JsFields.setKey, JsFields.lookup]
  | .cons n w rest, k, v => by
      by_cases h : n = k
      · simp [JsFields.setKey, JsFields.lookup, h]
      · simp [JsFields.setKey, JsFields.lookup, h,
          JsFields.lookup_setKey_self rest k v]

/-- Writing one key leaves every other key's lookup unchanged. -/
theorem JsFields.lookup_setKey_other : ∀ (fs : JsFields) (k : String) (v : JsValue)
    (c : String), k ≠ c → JsFields.lookup (fs.setKey k v) c = fs.lookup c
  | .nil, k, v, c, h => by simp [JsFields.setKey, JsFields.lookup, h]
  | .cons n w rest, k, v, c, h => by
      by_cases e : n = k
      · subst e
        simp [JsFields.setKey, JsFields.lookup, h]
      · simp only [JsFields.setKey, if_neg e]
        by_cases e2 : n = c
        · simp [JsFields.lookup, e2]
        · simp [JsFields.lookup, e2,
            JsFields.lookup_setKey_other rest k v c h]

/-- The transform loop never loses a key already present in the
accumulator. -/
theorem transformFields_preserves : ∀ (pd acc : JsFields) (c : String),
    (acc.lookup c).isSome = true → ((transformFields pd acc).lookup c).isSome = true
  | .nil, _, _, h => h
  | .cons n v rest, acc, c, h => by
      rw [transformFields]
      refine transformFields_preserves rest _ c ?_
      by_cases hc : canonicalName n = c
      · rw [hc, JsFields.lookup_setKey_self]
        rfl
      · rwa [JsFields.lookup_setKey_other _ _ _ _ hc]

/-- Every raw field of the payload ends up, under its canonical name, in
the transformed object. -/
theorem transformFields_covers : ∀ (pd acc : JsFields) (k : String),
    (pd.lookup k).isSome = true →
    ((transformFields pd acc).lookup (canonicalName k)).isSome = true
  | .nil, _, _, h => by simp [JsFields.lookup] at h
  | .cons n v rest, acc, k, h => by
      by_cases e : n = k
      · subst e
        rw [transformFields]
        exact transformFields_preserves rest _ _
          (by rw [JsFields.lookup_setKey_self]; rfl)
      · rw [JsFields.lookup, if_neg e] at h
        rw [transformFields]
        exact transformFields_covers rest _ k h

/-- C3 counterexample: a field whose payload is `{ checked: false }` —
the key `checked` from the preference list is present in the field's
structure, yet the normaliser stores the sentinel `'empty'`, because the
found value `false` is falsy and `|| 'empty'` replaces it.  This refutes
"substitutes the sentinel exactly when no key from the list is
present". -/
theorem sentinel_despite_checked_present :
    JsFields.lookup (transformData sampleCheckedPayload) "monitoring-and-evaluation"
      = some (.str "empty")
    ∧ hasKeyAmong (.obj (.cons "checked" (.bool false) .nil)) preferenceKeys = true :=
  ⟨rfl, rfl⟩

/-- C3 as amended: the extraction is the depth-first search
`findNestedValue` over the ordered preference list, and the sentinel
`'empty'` is substituted exactly when either no key from the list is
present in the field's structure (the search finds nothing) or the first
value found is falsy (`|| 'empty'`) — or the found value is literally
the string `'empty'`, which is indistinguishable from the sentinel; and
the normaliser never drops a field — every raw field of the payload
appears in the output under its canonical name, so one malformed field
cannot abort the submission. -/
theorem sentinel_characterization :
    (∀ v : JsValue,
      findNestedValue v preferenceKeys = none ↔ hasKeyAmong v preferenceKeys = false)
    ∧ (∀ v : JsValue, extractValue v = .str "empty" ↔
        (findNestedValue v preferenceKeys = none
          ∨ ∃ w, findNestedValue v preferenceKeys = some w
              ∧ (truthy w = false ∨ w = .str "empty")))
    ∧ (∀ (pd : JsFields) (k : String), (pd.lookup k).isSome = true →
        ((transformData pd).lookup (canonicalName k)).isSome = true) := by
  refine ⟨fun v => findNestedValue_eq_none_iff v preferenceKeys, fun v => ?_,
    fun pd k h => transformFields_covers pd .nil k h⟩
  cases h : findNestedValue v preferenceKeys with
  | none => simp [extractValue, h]
  | some w =>
      have hred : extractValue v = if truthy w = true then w else JsValue.str "empty" := by
        rw [extractValue, h]
      rw [hred]
      by_cases hw : truthy w
      · rw [if_pos hw]
        constructor
        · intro e
          exact Or.inr ⟨w, rfl, Or.inr e⟩
        · rintro (hn | ⟨w1, hww, hf | he⟩)
          · exact absurd hn (by simp)
          · injection hww with e
            rw [← e] at hf
            rw [hf] at hw
            exact Bool.noConfusion hw
          · injection hww with e
            rw [e, he]
      · rw [if_neg hw]
        simp only [Bool.not_eq_true] at hw
        exact iff_of_true rfl (Or.inr ⟨w, rfl, Or.inl hw⟩)

/-- Witness for C3: instantiating the amended theorem — the
`checked: false` payload has its field present in the output, and the
characterisation applied to its payload value. -/
theorem sentinel_characterization_witness :
    ((transformData sampleCheckedPayload).lookup "monitoring-and-evaluation").isSome = true :=
  sentinel_characterization.2.2 sampleCheckedPayload "true___false56" rfl

/-! ### Scoring-engine lemmas -/

/-- Reading after `+=`: adding into key `k` raises exactly the read of
`k` by the addend. -/
theorem assocGetD_assocAdd (l : List (String × Rat)) (k : String) (x : Rat)
    (d : String) :
    assocGetD (assocAdd l k x) d
      = if k = d then assocGetD l d + x else assocGetD l d := by
  induction l with
  | nil => by_cases h : k = d <;> simp [assocAdd, assocGetD, assocLookup, h]
  | cons p rest ih =>
      obtain ⟨n, v⟩ := p
      by_cases h1 : n = k
      · subst h1
        by_cases h2 : n = d <;> simp [assocAdd, assocGetD, assocLookup, h2]
      · by_cases h2 : n = d
        · subst h2
          have h3 : ¬ k = n := fun e => h1 e.symm
          simp [assocAdd, assocGetD, assocLookup, h1, h3]
        · simp only [assocAdd, if_neg h1, assocGetD, assocLookup, if_neg h2]
          simpa only [assocGetD] using ih

/-- The zero-initialised accumulator reads `0` everywhere. -/
theorem assocGetD_map_zero (dims : List (String × Rat)) (d : String) :
    assocGetD (dims.map (fun p => (p.1, (0 : Rat)))) d = 0 := by
  induction dims with
  | nil => simp [assocGetD, assocLookup]
  | cons p rest ih =>
      by_cases h : p.1 = d
      · simp [assocGetD, assocLookup, h]
      · simpa only [assocGetD, List.map_cons, assocLookup, if_neg h] using ih

/-- Folding the question loop adds each question's rounded weighted
score into its dimension: the accumulator read equals the closed-form
filtered sum. -/
theorem foldl_scoreStep_weighted (data : List (String × String)) :
    ∀ (qs : List Question) (st : ScoreState) (d : String),
      assocGetD (qs.foldl (scoreStep data) st).weightedScores d
        = assocGetD st.weightedScores d + weightedSumQ qs data d := by
  intro qs
  induction qs with
  | nil => intro st d; simp [weightedSumQ]
  | cons q rest ih =>
      intro st d
      rw [List.foldl_cons, ih]
      by_cases h : q.dimension = d
      · simp [scoreStep, assocGetD_assocAdd, h, weightedSumQ, List.filter_cons]
        ring
      · simp [scoreStep, assocGetD_assocAdd, h, weightedSumQ, List.filter_cons]

/-- The same for the per-dimension maxima. -/
theorem foldl_scoreStep_max (data : List (String × String)) :
    ∀ (qs : List Question) (st : ScoreState) (d : String),
      assocGetD (qs.foldl (scoreStep data) st).maxWeightedScores d
        = assocGetD st.maxWeightedScores d + maxWeightedSumQ qs d := by
  intro qs
  induction qs with
  | nil => intro st d; simp [maxWeightedSumQ]
  | cons q rest ih =>
      intro st d
      rw [List.foldl_cons, ih]
      by_cases h : q.dimension = d
      · simp [scoreStep, assocGetD_assocAdd, h, maxWeightedSumQ, List.filter_cons]
        ring
      · simp [scoreStep, assocGetD_assocAdd, h, maxWeightedSumQ, List.filter_cons]

/-- The diagnostics collected by the fold are exactly the unmatched
questions, in order. -/
theorem foldl_scoreStep_diags (data : List (String × String)) :
    ∀ (qs : List Question) (st : ScoreState),
      (qs.foldl (scoreStep data) st).diagnostics
        = st.diagnostics ++ unmatchedQuestions qs data := by
  intro qs
  induction qs with
  | nil => intro st; simp [unmatchedQuestions]
  | cons q rest ih =>
      intro st
      rw [List.foldl_cons, ih]
      cases h : answerValue q data with
      | none => simp [scoreStep, h, unmatchedQuestions, List.filter_cons]
      | some v => simp [scoreStep, h, unmatchedQuestions, List.filter_cons]

/-- The accumulated weighted score of a dimension, in closed form. -/
theorem runScores_weighted (dims : List (String × Rat)) (qs : List Question)
    (data : List (String × String)) (d : String) :
    assocGetD (runScores dims qs data).weightedScores d = weightedSumQ qs data d := by
  rw [runScores, foldl_scoreStep_weighted]
  simp [initScores, assocGetD_map_zero]

/-- The accumulated maximum of a dimension, in closed form — it does not
depend on the submission. -/
theorem runScores_max (dims : List (String × Rat)) (qs : List Question)
    (data : List (String × String)) (d : String) :
    assocGetD (runScores dims qs data).maxWeightedScores d = maxWeightedSumQ qs d := by
  rw [runScores, foldl_scoreStep_max]
  simp [initScores, assocGetD_map_zero]

/-- The diagnostics of a full scoring run. -/
theorem runScores_diags (dims : List (String × Rat)) (qs : List Question)
    (data : List (String × String)) :
    (runScores dims qs data).diagnostics = unmatchedQuestions qs data := by
  rw [runScores, foldl_scoreStep_diags]
  simp [initScores]

/-- `dimensionResults` in closed form. -/
theorem calculateScore_dimensionResults (dims : List (String × Rat))
    (qs : List Question) (data : List (String × String)) :
    (calculateScore dims qs data).dimensionResults
      = dims.map (fun p =>
          (p.1, weightedSumQ qs data p.1 / maxWeightedSumQ qs p.1 * 100)) := by
  simp only [calculateScore]
  exact List.map_congr_left
    (fun p _ => by rw [runScores_weighted, runScores_max])

/-- `totalScore` in closed form. -/
theorem calculateScore_totalScore (dims : List (String × Rat))
    (qs : List Question) (data : List (String × String)) :
    (calculateScore dims qs data).totalScore
      = jsRound ((dims.map (fun p => weightedSumQ qs data p.1 * p.2)).sum
          / (dims.map (fun p => maxWeightedSumQ qs p.1 * p.2)).sum * 100) := by
  simp only [calculateScore]
  have h1 : dims.map (fun p =>
        assocGetD (runScores dims qs data).weightedScores p.1 * p.2)
      = dims.map (fun p => weightedSumQ qs data p.1 * p.2) :=
    List.map_congr_left (fun p _ => by rw [runScores_weighted])
  have h2 : dims.map (fun p =>
        assocGetD (runScores dims qs data).maxWeightedScores p.1 * p.2)
      = dims.map (fun p => maxWeightedSumQ qs p.1 * p.2) :=
    List.map_congr_left (fun p _ => by rw [runScores_max])
  rw [h1, h2]

/-- The diagnostics returned by `calculateScore`. -/
theorem calculateScore_diagnostics (dims : List (String × Rat))
    (qs : List Question) (data : List (String × String)) :
    (calculateScore dims qs data).diagnostics = unmatchedQuestions qs data := by
  simp only [calculateScore]
  exact runScores_diags dims qs data

/-- Looking up a dimension name in a name-indexed map built over the
dimension list yields the formula at that name. -/
theorem assocLookup_map_of_mem {β : Type} (f : String → Rat) :
    ∀ (dims : List (String × β)) (p : String × β), p ∈ dims →
      assocLookup (dims.map (fun q => (q.1, f q.1))) p.1 = some (f p.1) := by
  intro dims
  induction dims with
  | nil => intro p hp; simp at hp
  | cons hd tl ih =>
      intro p hp
      by_cases h : hd.1 = p.1
      · simp [assocLookup, h]
      · rcases List.mem_cons.mp hp with rfl | hp2
        · exact absurd rfl h
        · simp [assocLookup, h, ih p hp2]

/-- `Math.round` is monotone. -/
theorem jsRound_le_jsRound {a b : Rat} (h : a ≤ b) : jsRound a ≤ jsRound b :=
  Int.floor_le_floor (by linarith)

/-- `Math.round 0 = 0`. -/
theorem jsRound_zero : jsRound 0 = 0 := by
  rw [jsRound]
  norm_num

/-- `Math.round 100 = 100`. -/
theorem jsRound_hundred : jsRound 100 = 100 := by
  rw [jsRound]
  norm_num

/-- Rounding a nonnegative value is nonnegative. -/
theorem jsRound_nonneg {x : Rat} (h : 0 ≤ x) : 0 ≤ jsRound x := by
  rw [← jsRound_zero]
  exact jsRound_le_jsRound h

/-- Rounding a value at most `100` stays at most `100`. -/
theorem jsRound_le_hundred {x : Rat} (h : x ≤ 100) : jsRound x ≤ 100 := by
  rw [← jsRound_hundred]
  exact jsRound_le_jsRound h

/-- A successful association lookup exhibits a list member. -/
theorem assocLookup_mem {α : Type} :
    ∀ (l : List (String × α)) (k : String) (v : α),
      assocLookup l k = some v → (k, v) ∈ l := by
  intro l
  induction l with
  | nil => intro k v h; simp [assocLookup] at h
  | cons p rest ih =>
      intro k v h
      obtain ⟨n, w⟩ := p
      by_cases e : n = k
      · subst e
        simp [assocLookup] at h
        subst h
        exact List.mem_cons_self _ _
      · rw [assocLookup, if_neg e] at h
        exact List.mem_cons_of_mem _ (ih k v h)

/-- The seed bounds the running maximum. -/
theorem le_foldl_max : ∀ (l : List (String × Rat)) (b : Rat),
    b ≤ l.foldl (fun m p => max m p.2) b := by
  intro l
  induction l with
  | nil => intro b; simp
  | cons p rest ih =>
      intro b
      simp only [List.foldl_cons]
      exact le_trans (le_max_left b p.2) (ih (max b p.2))

/-- Every member bounds the running maximum. -/
theorem mem_le_foldl_max : ∀ (l : List (String × Rat)) (b : Rat) (r : String × Rat),
    r ∈ l → r.2 ≤ l.foldl (fun m p => max m p.2) b := by
  intro l
  induction l with
  | nil => intro b r h; simp at h
  | cons p rest ih =>
      intro b r h
      rcases List.mem_cons.mp h with rfl | h2
      · simp only [List.foldl_cons]
        exact le_trans (le_max_right b r.2) (le_foldl_max rest (max b r.2))
      · simp only [List.foldl_cons]
        exact ih (max b p.2) r h2

/-- Every scored choice's points are at most the question's maximum. -/
theorem maxPoints_ge_mem (q : Question) (r : String × Rat)
    (h : r ∈ q.responses) : r.2 ≤ maxPoints q := by
  rcases hr : q.responses with _ | ⟨p, rest⟩
  · rw [hr] at h; simp at h
  · rw [hr] at h
    rcases List.mem_cons.mp h with rfl | h2
    · simp only [maxPoints, hr]
      exact le_foldl_max rest r.2
    · simp only [maxPoints, hr]
      exact mem_le_foldl_max rest p.2 r h2

/-- With nonnegative points, the question maximum is nonnegative. -/
theorem maxPoints_nonneg (q : Question)
    (hp : ∀ r ∈ q.responses, (0 : Rat) ≤ r.2) : 0 ≤ maxPoints q := by
  rcases hr : q.responses with _ | ⟨p, rest⟩
  · simp [maxPoints, hr]
  · refine le_trans (hp p (by rw [hr]; exact List.mem_cons_self _ _)) ?_
    exact maxPoints_ge_mem q p (by rw [hr]; exact List.mem_cons_self _ _)

/-- With nonnegative points, the scored value is nonnegative. -/
theorem responseScore_nonneg (q : Question) (data : List (String × String))
    (hp : ∀ r ∈ q.responses, (0 : Rat) ≤ r.2) : 0 ≤ responseScore q data := by
  rw [responseScore]
  cases h : answerValue q data with
  | none => simp
  | some v =>
      simp only [Option.getD_some]
      rw [answerValue] at h
      cases h2 : assocLookup data q.question with
      | none => rw [h2] at h; simp at h
      | some a =>
          rw [h2] at h
          rw [Option.some_bind] at h
          exact hp (a, v) (assocLookup_mem _ _ _ h)

/-- The scored value never exceeds the question maximum. -/
theorem responseScore_le_maxPoints (q : Question) (data : List (String × String))
    (hp : ∀ r ∈ q.responses, (0 : Rat) ≤ r.2) :
    responseScore q data ≤ maxPoints q := by
  rw [responseScore]
  cases h : answerValue q data with
  | none => simpa using maxPoints_nonneg q hp
  | some v =>
      simp only [Option.getD_some]
      rw [answerValue] at h
      cases h2 : assocLookup data q.question with
      | none => rw [h2] at h; simp at h
      | some a =>
          rw [h2] at h
          rw [Option.some_bind] at h
          exact maxPoints_ge_mem q (a, v) (assocLookup_mem _ _ _ h)

/-- With positive question weights and nonnegative points, a dimension's
weighted sum is nonnegative. -/
theorem weightedSumQ_nonneg (qs : List Question) (data : List (String × String))
    (d : String) (hq : ∀ q ∈ qs, (0 : Rat) < q.weight)
    (hp : ∀ q ∈ qs, ∀ r ∈ q.responses, (0 : Rat) ≤ r.2) :
    0 ≤ weightedSumQ qs data d := by
  rw [weightedSumQ]
  apply List.sum_nonneg
  intro x hx
  obtain ⟨q, hq2, rfl⟩ := List.mem_map.mp hx
  have hmem := List.mem_of_mem_filter hq2
  exact_mod_cast jsRound_nonneg
    (mul_nonneg (responseScore_nonneg q data (hp q hmem)) (le_of_lt (hq q hmem)))

/-- With positive question weights and nonnegative points, a dimension's
weighted sum never exceeds its maximum. -/
theorem weightedSumQ_le_max (qs : List Question) (data : List (String × String))
    (d : String) (hq : ∀ q ∈ qs, (0 : Rat) < q.weight)
    (hp : ∀ q ∈ qs, ∀ r ∈ q.responses, (0 : Rat) ≤ r.2) :
    weightedSumQ qs data d ≤ maxWeightedSumQ qs d := by
  rw [weightedSumQ, maxWeightedSumQ]
  apply List.sum_le_sum
  intro q hq2
  have hmem := List.mem_of_mem_filter hq2
  have hstep : responseScore q data * q.weight ≤ maxPoints q * q.weight :=
    mul_le_mul_of_nonneg_right (responseScore_le_maxPoints q data (hp q hmem))
      (le_of_lt (hq q hmem))
  exact_mod_cast jsRound_le_jsRound hstep

/-- C4: per question the engine adds `round(points(answer) · weight)`
into its dimension's score and `round(max points · weight)` into its
dimension's maximum; each dimension's percentage is
`100 · weightedSum(d) / maxWeightedSum(d)`, and the total is
`100 · Σ weightedSum(d)·dimWeight(d) / Σ maxWeightedSum(d)·dimWeight(d)`
rounded to the nearest integer (half up).  The hypothesis is the rubric
invariant that every question declares at least one scored answer. -/
theorem calculateScore_closed_form (dims : List (String × Rat)) (qs : List Question)
    (data : List (String × String)) (hresp : ∀ q ∈ qs, q.responses ≠ []) :
    (∀ p ∈ dims, assocLookup (calculateScore dims qs data).dimensionResults p.1
        = some (100 * weightedSumQ qs data p.1 / maxWeightedSumQ qs p.1))
    ∧ (calculateScore dims qs data).totalScore
        = jsRound (100 * (dims.map (fun p => weightedSumQ qs data p.1 * p.2)).sum
            / (dims.map (fun p => maxWeightedSumQ qs p.1 * p.2)).sum) := by
  constructor
  · intro p hp
    rw [calculateScore_dimensionResults]
    rw [assocLookup_map_of_mem
      (fun s => weightedSumQ qs data s / maxWeightedSumQ qs s * 100) dims p hp]
    congr 1
    ring
  · rw [calculateScore_totalScore]
    congr 1
    ring

/-- Witness for C4: the closed form instantiated on the small concrete
rubric. -/
theorem calculateScore_closed_form_witness :
    assocLookup (calculateScore sampleDims sampleQs sampleWrongData).dimensionResults "d"
      = some (100 * weightedSumQ sampleQs sampleWrongData "d" / maxWeightedSumQ sampleQs "d") :=
  (calculateScore_closed_form sampleDims sampleQs sampleWrongData (by decide)).1
    ("d", 2) (by decide)

/-- C5: a submitted answer outside a question's scored choices is scored
as `0` — it contributes `round(0 · weight) = 0` to its dimension's
weighted sum — a diagnostic naming the question is recorded, the
dimension's accumulated maximum is the same for every submission, and
scoring completes, producing a percentage for every dimension. -/
theorem unscorable_answer_scores_zero (dims : List (String × Rat))
    (qs : List Question) (data : List (String × String)) (q : Question) (a : String)
    (hq : q ∈ qs) (hans : assocLookup data q.question = some a)
    (hnot : assocLookup q.responses a = none) :
    q.question ∈ (calculateScore dims qs data).diagnostics
    ∧ responseScore q data = 0
    ∧ ((jsRound (responseScore q data * q.weight) : Int) : Rat) = 0
    ∧ (∀ data2, assocGetD (runScores dims qs data2).maxWeightedScores q.dimension
        = maxWeightedSumQ qs q.dimension)
    ∧ (calculateScore dims qs data).dimensionResults.length = dims.length := by
  have hav : answerValue q data = none := by
    rw [answerValue, hans, Option.some_bind, hnot]
  refine ⟨?_, ?_, ?_, ?_, ?_⟩
  · rw [calculateScore_diagnostics, unmatchedQuestions]
    exact List.mem_map.mpr
      ⟨q, List.mem_filter.mpr ⟨hq, by simp [hav]⟩, rfl⟩
  · rw [responseScore, hav]
    rfl
  · rw [responseScore, hav]
    simpa using jsRound_zero
  · intro data2
    exact runScores_max dims qs data2 q.dimension
  · rw [calculateScore_dimensionResults]
    simp

/-- Witness for C5: in the small rubric, `q2` is answered `maybe`, which
is not among its choices — it lands in the diagnostics. -/
theorem unscorable_answer_scores_zero_witness :
    "q2" ∈ (calculateScore sampleDims sampleQs sampleWrongData).diagnostics :=
  (unscorable_answer_scores_zero sampleDims sampleQs sampleWrongData
    ⟨"q2", "d", 2, [("high", 3), ("low", 1)]⟩ "maybe"
    (by decide) (by decide) (by decide)).1

/-- C6 counterexample: a rubric whose dimension weight and question
weight are both positive but whose points are negative drives the
dimension percentage and the total to `500` — outside `[0, 100]` — so
positivity of the weights alone does not give the claimed bounds. -/
theorem score_exceeds_bounds_with_positive_weights :
    (∀ p ∈ negRubricDims, (0 : Rat) < p.2)
    ∧ (∀ q ∈ negRubricQs, (0 : Rat) < q.weight)
    ∧ assocLookup (calculateScore negRubricDims negRubricQs negRubricData).dimensionResults "d"
        = some 500
    ∧ (calculateScore negRubricDims negRubricQs negRubricData).totalScore = 500
    ∧ ¬ ((500 : Rat) ≤ 100) := by
  refine ⟨by decide, by decide, ?_, ?_, by norm_num⟩ <;>
    norm_num [calculateScore, runScores, initScores, scoreStep, assocAdd, assocSet,
      assocGetD, assocLookup, answerValue, responseScore, maxPoints, jsRound,
      negRubricDims, negRubricQs, negRubricData]

/-- C6 as amended: with positive dimension and question weights — and
additionally nonnegative answer point values, a nonempty dimension list,
and a positive accumulated maximum for every dimension (all true of any
sane rubric, but not implied by weight positivity alone, as the
counterexample shows) — every dimension percentage and the total lie in
`[0, 100]`. -/
theorem score_bounds_nonneg_rubric (dims : List (String × Rat))
    (qs : List Question) (data : List (String × String))
    (hne : dims ≠ [])
    (hd : ∀ p ∈ dims, (0 : Rat) < p.2)
    (hq : ∀ q ∈ qs, (0 : Rat) < q.weight)
    (hp : ∀ q ∈ qs, ∀ r ∈ q.responses, (0 : Rat) ≤ r.2)
    (hmax : ∀ p ∈ dims, (0 : Rat) < maxWeightedSumQ qs p.1) :
    (∀ pr ∈ (calculateScore dims qs data).dimensionResults, 0 ≤ pr.2 ∧ pr.2 ≤ 100)
    ∧ 0 ≤ (calculateScore dims qs data).totalScore
    ∧ (calculateScore dims qs data).totalScore ≤ 100 := by
  have hw0 : ∀ d, 0 ≤ weightedSumQ qs data d :=
    fun d => weightedSumQ_nonneg qs data d hq hp
  have hwm : ∀ d, weightedSumQ qs data d ≤ maxWeightedSumQ qs d :=
    fun d => weightedSumQ_le_max qs data d hq hp
  refine ⟨?_, ?_, ?_⟩
  · intro pr hpr
    rw [calculateScore_dimensionResults] at hpr
    obtain ⟨p, hpmem, rfl⟩ := List.mem_map.mp hpr
    dsimp only
    constructor
    · exact mul_nonneg (div_nonneg (hw0 p.1) (le_of_lt (hmax p hpmem)))
        (by norm_num)
    · have h1 : weightedSumQ qs data p.1 / maxWeightedSumQ qs p.1 ≤ 1 :=
        (div_le_one (hmax p hpmem)).mpr (hwm p.1)
      calc weightedSumQ qs data p.1 / maxWeightedSumQ qs p.1 * 100
          ≤ 1 * 100 := mul_le_mul_of_nonneg_right h1 (by norm_num)
        _ = 100 := one_mul 100
  · rw [calculateScore_totalScore]
    apply jsRound_nonneg
    apply mul_nonneg _ (by norm_num : (0 : Rat) ≤ 100)
    apply div_nonneg
    · apply List.sum_nonneg
      intro x hx
      obtain ⟨p, hpmem, rfl⟩ := List.mem_map.mp hx
      exact mul_nonneg (hw0 p.1) (le_of_lt (hd p hpmem))
    · apply List.sum_nonneg
      intro x hx
      obtain ⟨p, hpmem, rfl⟩ := List.mem_map.mp hx
      exact mul_nonneg (le_of_lt (hmax p hpmem)) (le_of_lt (hd p hpmem))
  · rw [calculateScore_totalScore]
    apply jsRound_le_hundred
    have hM : 0 < (dims.map (fun p => maxWeightedSumQ qs p.1 * p.2)).sum := by
      apply List.sum_pos
      · intro x hx
        obtain ⟨p, hpmem, rfl⟩ := List.mem_map.mp hx
        exact mul_pos (hmax p hpmem) (hd p hpmem)
      · simpa using hne
    have hWM : (dims.map (fun p => weightedSumQ qs data p.1 * p.2)).sum
        ≤ (dims.map (fun p => maxWeightedSumQ qs p.1 * p.2)).sum := by
      apply List.sum_le_sum
      intro p hpmem
      exact mul_le_mul_of_nonneg_right (hwm p.1) (le_of_lt (hd p hpmem))
    have h1 : (dims.map (fun p => weightedSumQ qs data p.1 * p.2)).sum
        / (dims.map (fun p => maxWeightedSumQ qs p.1 * p.2)).sum ≤ 1 :=
      (div_le_one hM).mpr hWM
    calc (dims.map (fun p => weightedSumQ qs data p.1 * p.2)).sum
          / (dims.map (fun p => maxWeightedSumQ qs p.1 * p.2)).sum * 100
        ≤ 1 * 100 := mul_le_mul_of_nonneg_right h1 (by norm_num)
      _ = 100 := one_mul 100

/-- Witness for C6: the amended bounds instantiated on the small
concrete rubric (all hypotheses discharged there). -/
theorem score_bounds_nonneg_rubric_witness :
    0 ≤ (calculateScore sampleDims sampleQs sampleWrongData).totalScore
    ∧ (calculateScore sampleDims sampleQs sampleWrongData).totalScore ≤ 100 :=
  (score_bounds_nonneg_rubric sampleDims sampleQs sampleWrongData
    (by decide) (by decide) (by decide) (by decide)
    (by
      intro p hp
      simp only [sampleDims, List.mem_singleton] at hp
      subst hp
      norm_num [maxWeightedSumQ, sampleQs, maxPoints, jsRound])).2

/-- C7 (code bug evidence): for a rubric containing a dimension with
zero questions, nothing rejects the configuration — there is no
load-time guard anywhere in the scoring code — and `calculateScore`
still runs: the dimension's accumulated maximum is `0`, the per-dimension
division is `0 / 0` (`NaN` in JavaScript; `0` in this model), the total
divides by `0` as well, and no diagnostic or error is produced. -/
theorem zero_question_dimension_divides_by_zero :
    maxWeightedSumQ [] "governance" = 0
    ∧ assocGetD (runScores zeroQuestionDims [] []).maxWeightedScores "governance" = 0
    ∧ (calculateScore zeroQuestionDims [] []).dimensionResults = [("governance", 0)]
    ∧ (calculateScore zeroQuestionDims [] []).totalScore = 0
    ∧ (calculateScore zeroQuestionDims [] []).diagnostics = [] := by
  refine ⟨by simp [maxWeightedSumQ], ?_, ?_, ?_, ?_⟩ <;>
    norm_num [calculateScore, runScores, initScores, assocGetD, assocLookup,
      zeroQuestionDims, unmatchedQuestions, jsRound]

/-- Witness for C8: a store holding one outstanding token `tok` — the
missing-token request gives `400`, an unknown token gives `500`, and
redeeming `tok` then re-redeeming it gives `200` then `500` with the
decision still `approve`. -/
theorem decision_endpoints_single_use_witness :
    handleApproval none ⟨[("tok", none)]⟩ = (400, ⟨[("tok", none)]⟩)
    ∧ handleApproval (some "bad") ⟨[("tok", none)]⟩ = (500, ⟨[("tok", none)]⟩)
    ∧ ∃ ts2, handleApproval (some "tok") ⟨[("tok", none)]⟩ = (200, ts2)
        ∧ decisionOf ts2 "tok" = some "approve"
        ∧ handleApproval (some "tok") ts2 = (500, ts2)
        ∧ handleWaitlist (some "tok") ts2 = (500, ts2) :=
  ⟨(decision_endpoints_single_use.1 ⟨[("tok", none)]⟩).1,
   (decision_endpoints_single_use.2.1 ⟨[("tok", none)]⟩ "bad" (by decide) rfl).1,
   decision_endpoints_single_use.2.2.2 ⟨[("tok", none)]⟩ "tok" (by decide) rfl⟩

end CommonGood
